import Mathlib

/-!
Verification of the split-step Schroedinger solver (supersolids).

Shallow embedding of `src/supersolids/functions.py` and
`src/supersolids/Schroedinger.py` over the reals/complexes:
numpy float arithmetic is modelled by exact real arithmetic,
numpy arrays over a grid by functions on finite index tuples
(and, where a claim is about array shape, by an explicit
shape-plus-flat-data record).  Python `**` with a float exponent is
embedded as `Real.rpow`; `**` with an int literal as monoid power.
-/

namespace Supersolids

/-! ## functions.py -/

/-- Embeds `functions.dipol_dipol_interaction`, pointwise over the mesh
(numpy `**`, `np.where`, `/` and `-` are all elementwise).  The numpy
`np.isnan` masking that follows is a no-op here: over the reals the
guarded division never produces a NaN, exactly as the source comment
says ("at this point there should not be any"). -/
noncomputable def dipol_dipol_interaction (kx_mesh ky_mesh kz_mesh : ℝ) : ℝ :=
  let k_squared := kx_mesh ^ (2:ℝ) + ky_mesh ^ (2:ℝ) + kz_mesh ^ (2:ℝ)
  let factor := 3.0 * kz_mesh ^ (2:ℝ)
  -- np.where(k_squared == 0.0, 1.0, k_squared)
  let k_squared_singular_free := if k_squared = 0 then 1.0 else k_squared
  factor / k_squared_singular_free - 1.0

/-- Embeds `functions.mu_1d`. -/
noncomputable def mu_1d (g : ℝ) : ℝ :=
  ((3.0 * g) / (4.0 * Real.sqrt 2.0)) ^ ((2.0:ℝ) / 3.0)

/-- Embeds `functions.mu_2d`. -/
noncomputable def mu_2d (g : ℝ) : ℝ :=
  Real.sqrt (g / Real.pi)

/-- Embeds `functions.mu_3d`. -/
noncomputable def mu_3d (g : ℝ) : ℝ :=
  ((15 * g) / (16 * Real.sqrt 2 * Real.pi)) ^ ((2:ℝ) / 5)

/-- Embeds `functions.thomas_fermi_1d`: `None` for `g = 0`. -/
noncomputable def thomas_fermi_1d (x : ℝ) (g : ℝ) : Option ℝ :=
  if g ≠ 0 then
    some (mu_1d g * (1 - ((x ^ 2) / (2 * mu_1d g))) / g)
  else
    none

/-- Embeds `functions.thomas_fermi_2d`. -/
noncomputable def thomas_fermi_2d (x y : ℝ) (g : ℝ) : Option ℝ :=
  if g ≠ 0 then
    some (mu_2d g * (1 - ((x ^ 2 + y ^ 2) / (2 * mu_2d g))) / g)
  else
    none

/-- Embeds `functions.thomas_fermi_3d`. -/
noncomputable def thomas_fermi_3d (x y z : ℝ) (g : ℝ) : Option ℝ :=
  if g ≠ 0 then
    some (mu_3d g * (1 - ((x ^ 2 + y ^ 2 + z ^ 2) / (2 * mu_3d g))) / g)
  else
    none

/-- Embeds `functions.v_2d`.  Note: the parameter `alpha_y` is accepted
but never used by the source body. -/
noncomputable def v_2d (x y : ℝ) (alpha_y : ℝ) : ℝ :=
  0.5 * (x ^ 2 + y ^ 2)

/-- Embeds `functions.v_harmonic_2d`: delegates to `v_2d` with the
keyword argument `alpha_y=1.0` hard-coded, ignoring its own `alpha_y`. -/
noncomputable def v_harmonic_2d (x y : ℝ) (alpha_y : ℝ) : ℝ :=
  v_2d x y 1.0

/-- Embeds `functions.v_harmonic_3d`. -/
noncomputable def v_harmonic_3d (x y z : ℝ) (alpha_y : ℝ) (alpha_z : ℝ) : ℝ :=
  0.5 * (x ^ 2 + (alpha_y * y) ^ 2 + (alpha_z * z) ^ 2)

/-! ## Schroedinger.py: grid construction (`Schroedinger.__init__`) -/

/-- A numpy ndarray of reals: explicit shape plus row-major flat data.
Used where a claim is about the shape of an array. -/
structure NpArr where
  shape : List ℕ
  data : List ℝ

/-- Elementwise square (`arr ** 2.0`): shape preserved. -/
noncomputable def npSquare (a : NpArr) : NpArr :=
  ⟨a.shape, a.data.map (fun v => v ^ (2:ℝ))⟩

/-- Elementwise `+` of two arrays of equal shape (`+=` in the source):
shape preserved. -/
def npAddSameShape (a b : NpArr) : NpArr :=
  ⟨a.shape, List.zipWith (· + ·) a.data b.data⟩

/-- The integer frequency index of `np.fft.fftfreq`: for sample `i` of
`n`, the value `i` on the first (non-negative) half and `i - n` on the
second (negative) half. -/
def fftfreqIdx (n i : ℕ) : ℤ :=
  if i < (n + 1) / 2 then (i : ℤ) else (i : ℤ) - (n : ℤ)

/-- `np.fft.fftfreq(n, d)` as a list: entry `i` is `fftfreqIdx n i / (d·n)`. -/
noncomputable def fftfreq (n : ℕ) (d : ℝ) : List ℝ :=
  (List.range n).map (fun i => (fftfreqIdx n i : ℝ) / (d * n))

/-- `np.linspace(a, b, n)` (default `endpoint=True`): `n` samples from
`a` to `b` inclusive, consecutive samples `(b-a)/(n-1)` apart.  For
`n = 1` numpy returns `[a]`, for `n = 0` the empty array. -/
noncomputable def linspace (a b : ℝ) (n : ℕ) : List ℝ :=
  if n ≤ 1 then (List.range n).map (fun _ => a)
  else (List.range n).map (fun (i : ℕ) => a + (i : ℝ) * ((b - a) / ((n : ℝ) - 1)))

/-- The position axis of the constructor: `np.linspace(-L, L, resolution)`. -/
noncomputable def xAxis (L : ℝ) (resolution : ℕ) : List ℝ :=
  linspace (-L) L resolution

/-- The stored spacing of the constructor: `dx = 2.0 * L / resolution`.
Lean's real division is total, so this is faithful only for
`resolution ≥ 1`: at `resolution = 0` the Python division raises
`ZeroDivisionError` instead of producing a value, so statements about
successful construction are made on the positive domain. -/
noncomputable def dxStored (L : ℝ) (resolution : ℕ) : ℝ :=
  2.0 * L / resolution

/-- `dkx = np.pi / L`. -/
noncomputable def dkx (L : ℝ) : ℝ :=
  Real.pi / L

/-- The wavevector axis: `np.fft.fftfreq(resolution, d=1.0/(dkx*resolution))`
evaluated at sample `i`. -/
noncomputable def kxVal (resolution : ℕ) (L : ℝ) (i : ℕ) : ℝ :=
  (fftfreqIdx resolution i : ℝ) / ((1.0 / (dkx L * resolution)) * resolution)

/-- `self.kx` as an ndarray: a one-dimensional array of `resolution` samples. -/
noncomputable def kxArr (resolution : ℕ) (L : ℝ) : NpArr :=
  ⟨[resolution], (List.range resolution).map (kxVal resolution L)⟩

/-- `self.k_squared` exactly as the constructor builds it:
`k_squared = kx ** 2.0`, then `+= ky ** 2.0` when `dim >= 2` and
`+= kz ** 2.0` when `dim >= 3`, where `ky` and `kz` are constructed
identically to `kx` (same `L`, same resolution). -/
noncomputable def kSquaredArr (dim resolution : ℕ) (L : ℝ) : NpArr :=
  let b0 := npSquare (kxArr resolution L)
  let b1 := if 2 ≤ dim then npAddSameShape b0 (npSquare (kxArr resolution L)) else b0
  if 3 ≤ dim then npAddSameShape b1 (npSquare (kxArr resolution L)) else b1

/-- The entry-level value of the constructed `k_squared` at sample `i`:
the sum over the active axes of the squared wavevector sample `i` of
each axis (all axes share the same samples). -/
noncomputable def kSquaredVal (dim resolution : ℕ) (L : ℝ) (i : ℕ) : ℝ :=
  kxVal resolution L i ^ (2:ℝ)
    + (if 2 ≤ dim then kxVal resolution L i ^ (2:ℝ) else 0)
    + (if 3 ≤ dim then kxVal resolution L i ^ (2:ℝ) else 0)

/-- The only configuration abort of `Schroedinger.__init__`:
`sys.exit(1)` when `dim > 3`. -/
inductive ConfigError
  | dimNotImplemented
  deriving DecidableEq

/-- The grid/propagator state the constructor returns (the pieces the
claims reference).  `hKin` mirrors the fact that `H_kin` is computed
from the one-dimensional `k_squared`, hence is itself one-dimensional
with `resolution` entries; it is set by the `dim == 1/2/3` dispatch
only (`none` otherwise).  Field initialisation (`psi_val`, `V_val`,
`psi_sol_val`) is carried abstractly by the propagation-engine state
below and not duplicated here. -/
structure EngineMeta where
  resolution : ℕ
  dim : ℕ
  L : ℝ
  dt : ℝ
  g : ℝ
  x : List ℝ
  dx : ℝ
  kSquared : NpArr
  U : ℂ
  hKin : Option (List ℂ)

/-- Embeds `Schroedinger.__init__` up to the attributes the claims
reference.  The source builds the axes and `k_squared`, then calls
`sys.exit(1)` when `dim > 3` (so no object is ever returned), and only
then dispatches on `dim == 1/2/3` to build `H_kin`; a `Bool` models
`imag_time` (`U = -1` for imaginary time, `U = -i` for real time).
As with `dxStored`, the divisions by `resolution` are total here, so
the model tracks the source on `resolution ≥ 1`; at `resolution = 0`
the Python constructor raises `ZeroDivisionError` at the `dx` division
and returns no object, an error path not represented by this record. -/
noncomputable def schroedingerInit (resolution timesteps : ℕ) (L dt g : ℝ)
    (imag_time : Bool) (dim : ℕ) : Except ConfigError EngineMeta :=
  let x := xAxis L resolution
  let dx := dxStored L resolution
  let U : ℂ := if imag_time then -1 else -Complex.I
  let k2 := kSquaredArr dim resolution L
  if 3 < dim then
    .error .dimNotImplemented
  else
    let hKin : Option (List ℂ) :=
      if dim = 1 ∨ dim = 2 ∨ dim = 3 then
        some (k2.data.map (fun v => Complex.exp (U * (0.5 * (v : ℂ)) * (dt : ℂ))))
      else
        none
    .ok ⟨resolution, dim, L, dt, g, x, dx, k2, U, hKin⟩

/-- `Except.isOk`: did the computation return a value? -/
def isOkE {ε α : Type} : Except ε α → Bool
  | .ok _ => true
  | .error _ => false

/-! ## Schroedinger.py: propagation engine (`time_step`, `get_norm`)

A dense `n`-dimensional complex array over a grid of `R` samples per
axis is modelled as a function on index tuples `Fin n → Fin R`. -/

/-- A complex field over the `n`-dimensional grid with `R` samples per axis. -/
def GridFn (n R : ℕ) : Type := (Fin n → Fin R) → ℂ

/-- A real field over the grid (the potential `V_val`). -/
def GridRFn (n R : ℕ) : Type := (Fin n → Fin R) → ℝ

/-- The error numpy raises when an array is indexed with more indices
than it has dimensions (`IndexError: too many indices for array`). -/
inductive NpError
  | tooManyIndices
  deriving DecidableEq

/-- numpy basic slicing with `nIdx` slice indices on an `ndim`-dimensional
array: slice ranges clamp to the array bounds and never fail, but
supplying more slice indices than dimensions raises `IndexError`.  The
sliced values themselves are discarded by the caller (`a = ...` is a
dead store in the source), so only the success/failure matters. -/
def npSliceCheck (ndim nIdx : ℕ) : Except NpError Unit :=
  if nIdx ≤ ndim then .ok () else .error .tooManyIndices

/-- The mutable state of a `Schroedinger` engine that `time_step`
reads and writes.  The constructor always sets `dy = dz = dx`, so a
single spacing `dx` carries the per-axis spacings; `H_kin` is the
one-dimensional array of `R` entries built from the one-dimensional
`k_squared` (see `kSquaredArr`). -/
structure EngineState (n R : ℕ) where
  psi_val : GridFn n R
  V_val : GridRFn n R
  H_kin : Fin R → ℂ
  U : ℂ
  g : ℝ
  dt : ℝ
  dx : ℝ
  t : ℝ
  mu : ℝ
  E : ℝ

/-- `Schroedinger.get_norm`: `np.sum(np.abs(psi_val) ** p)` times the
cell volume `dx·dy·dz` (one factor of the spacing per axis; the
constructor sets all spacings equal to `dx`). -/
noncomputable def get_norm {n R : ℕ} (ψ : GridFn n R) (dx : ℝ) (p : ℝ) : ℝ :=
  (∑ q : Fin n → Fin R, (Complex.abs (ψ q)) ^ p) * dx ^ n

/-- The position-space half-step propagator recomputed each use:
`H_pot = np.exp(U * (V_val + g * np.abs(psi) ** 2.0) * (0.5 * dt))`,
with `U, g, dt, V_val` taken from the state and `psi` the supplied
(current) field. -/
noncomputable def h_pot {n R : ℕ} (st : EngineState n R) (ψ : GridFn n R) : GridFn n R :=
  fun q => Complex.exp (st.U * ((st.V_val q + st.g * (Complex.abs (ψ q)) ^ (2:ℝ) : ℝ) : ℂ)
    * ((0.5 * st.dt : ℝ) : ℂ))

/-- `np.fft.fftn`: unnormalised forward discrete Fourier transform
jointly over all axes. -/
noncomputable def fftn {n R : ℕ} (ψ : GridFn n R) : GridFn n R :=
  fun k => ∑ q : Fin n → Fin R,
    ψ q * Complex.exp (-(2 * Real.pi * Complex.I)
      * ((∑ j, (q j : ℕ) * (k j : ℕ) : ℕ) : ℂ) / (R : ℂ))

/-- `np.fft.ifftn`: inverse discrete Fourier transform jointly over all
axes, normalised by the total number of grid points `R ^ n`. -/
noncomputable def ifftn {n R : ℕ} (ψ : GridFn n R) : GridFn n R :=
  fun q => (1 / ((R : ℂ) ^ n)) * ∑ k : Fin n → Fin R,
    ψ k * Complex.exp ((2 * Real.pi * Complex.I)
      * ((∑ j, (q j : ℕ) * (k j : ℕ) : ℕ) : ℂ) / (R : ℂ))

/-- `self.H_kin * self.psi_val`: numpy broadcasting of the shape-`(R,)`
array `H_kin` against the shape-`(R,…,R)` field aligns trailing axes,
so `H_kin` multiplies along the last axis. -/
def mulHkin {d R : ℕ} (h : Fin R → ℂ) (ψ : GridFn (d + 1) R) : GridFn (d + 1) R :=
  fun q => h (q (Fin.last d)) * ψ q

/-- The end-of-step renormalisation
`psi_val /= np.sqrt(get_norm(p=2.0))`, elementwise. -/
noncomputable def rescale {n R : ℕ} (ψ : GridFn n R) (dx : ℝ) : GridFn n R :=
  fun q => ψ q / ((Real.sqrt (get_norm ψ dx 2) : ℝ) : ℂ)

/-- Embeds `Schroedinger.time_step` line by line.  The two dead stores
`a = np.abs(self.psi_val[29:35, 29:34]) ** 2.0` index the field with two
slice indices, which raises `IndexError` whenever the field has fewer
than two axes (see `npSliceCheck`); everything after the failing line —
the Fourier steps, the time advance, the renormalisation and the `mu`/`E`
updates — is then never reached. -/
noncomputable def time_step {d R : ℕ} (st : EngineState (d + 1) R) :
    Except NpError (EngineState (d + 1) R) := do
  let ψ1 : GridFn (d + 1) R := fun q => h_pot st st.psi_val q * st.psi_val q
  let _ ← npSliceCheck (d + 1) 2
  let ψ2 := fftn ψ1
  let ψ3 := mulHkin st.H_kin ψ2
  let ψ4 := ifftn ψ3
  let _ ← npSliceCheck (d + 1) 2
  let ψ5 : GridFn (d + 1) R := fun q => h_pot st ψ4 q * ψ4 q
  let t' := st.t + st.dt
  let psi_norm_after_evolution := get_norm ψ5 st.dx 2
  let ψ6 := rescale ψ5 st.dx
  let psi_quadratic_integral := get_norm ψ6 st.dx 4
  let mu' := -Real.log psi_norm_after_evolution / (2.0 * st.dt)
  let E' := mu' - 0.5 * st.g * psi_quadratic_integral
  return { st with psi_val := ψ6, t := t', mu := mu', E := E' }

/-- Modelled from the spec: the per-step sequence of §4.3 / claim C2 —
recompute `H_pot` from the current field and apply it; `fftn`; multiply
by the precomputed `H_kin` (broadcast); `ifftn`; recompute `H_pot` from
the updated field and apply it; advance `t` by `dt`; rescale by
`1/√(p=2 norm)`, with the `mu`/`E` diagnostics of steps 9-11 of §4.3. -/
noncomputable def spec_step {d R : ℕ} (st : EngineState (d + 1) R) :
    EngineState (d + 1) R :=
  let ψ1 : GridFn (d + 1) R := fun q => h_pot st st.psi_val q * st.psi_val q
  let ψ2 := fftn ψ1
  let ψ3 := mulHkin st.H_kin ψ2
  let ψ4 := ifftn ψ3
  let ψ5 : GridFn (d + 1) R := fun q => h_pot st ψ4 q * ψ4 q
  let t' := st.t + st.dt
  let norm2 := get_norm ψ5 st.dx 2
  let ψ6 := rescale ψ5 st.dx
  let norm4 := get_norm ψ6 st.dx 4
  let mu' := -Real.log norm2 / (2.0 * st.dt)
  let E' := mu' - 0.5 * st.g * norm4
  { st with psi_val := ψ6, t := t', mu := mu', E := E' }

/-! ## Spec-side definitions (for refinement comparisons) -/

/-- The Thomas-Fermi profile exactly as the spec/claim words it for 1D:
`μ(g)·(1 - Σcoord²/(2μ(g)))/g` with `μ(g) = ((3g)/(4√2))^(2/3)`,
null when `g = 0`. -/
noncomputable def thomasFermiClaim_1d (x g : ℝ) : Option ℝ :=
  if g = 0 then none
  else
    some (((3 * g) / (4 * Real.sqrt 2)) ^ ((2:ℝ) / 3)
      * (1 - x ^ 2 / (2 * ((3 * g) / (4 * Real.sqrt 2)) ^ ((2:ℝ) / 3))) / g)

/-- The Thomas-Fermi profile as the claim words it for 2D:
`μ(g) = √(g/π)`. -/
noncomputable def thomasFermiClaim_2d (x y g : ℝ) : Option ℝ :=
  if g = 0 then none
  else
    some (Real.sqrt (g / Real.pi)
      * (1 - (x ^ 2 + y ^ 2) / (2 * Real.sqrt (g / Real.pi))) / g)

/-- The Thomas-Fermi profile as the claim words it for 3D:
`μ(g) = ((15g)/(16√2π))^(2/5)`. -/
noncomputable def thomasFermiClaim_3d (x y z g : ℝ) : Option ℝ :=
  if g = 0 then none
  else
    some (((15 * g) / (16 * Real.sqrt 2 * Real.pi)) ^ ((2:ℝ) / 5)
      * (1 - (x ^ 2 + y ^ 2 + z ^ 2)
          / (2 * ((15 * g) / (16 * Real.sqrt 2 * Real.pi)) ^ ((2:ℝ) / 5))) / g)

/-! ## Concrete instances used by witnesses and counterexamples -/

/-- A concrete one-dimensional engine state (resolution 1, unit field,
zero potential, imaginary time). -/
noncomputable def engine1d : EngineState 1 1 where
  psi_val := fun _ => 1
  V_val := fun _ => 0
  H_kin := fun _ => 1
  U := -1
  g := 0
  dt := 1
  dx := 1
  t := 0
  mu := 1.1
  E := 1

/-- The constant-one field on the one-point one-dimensional grid. -/
noncomputable def psiOne : GridFn 1 1 := fun _ => 1

/-! ## Helper lemmas -/

/-- numpy `**` with float exponent `2.0` agrees with squaring. -/
lemma rpow_two_eq_sq (x : ℝ) : x ^ (2:ℝ) = x ^ 2 := by
  rw [show (2:ℝ) = ((2:ℕ) : ℝ) by norm_num, Real.rpow_natCast]

/-- Zipping two maps over the same list with `f` is a single map. -/
lemma zipWith_map_same {α β γ : Type} (f : β → β → γ) (g h : α → β) :
    ∀ l : List α, List.zipWith f (l.map g) (l.map h) = l.map (fun a => f (g a) (h a))
  | [] => rfl
  | a :: l => by simpa using zipWith_map_same f g h l

/-- Dividing every entry of a field by a nonnegative real constant
divides its p=2 norm integral by the square of the constant. -/
lemma get_norm_div_const {n R : ℕ} (ψ : GridFn n R) (dx c : ℝ) (hc : 0 ≤ c) :
    get_norm (fun q => ψ q / ((c : ℝ) : ℂ)) dx 2 = get_norm ψ dx 2 / c ^ 2 := by
  unfold get_norm
  have key : ∀ q : Fin n → Fin R,
      Complex.abs (ψ q / ((c : ℝ) : ℂ)) ^ (2:ℝ)
        = Complex.abs (ψ q) ^ (2:ℝ) / c ^ 2 := by
    intro q
    rw [map_div₀, Complex.abs_ofReal, abs_of_nonneg hc,
      rpow_two_eq_sq, rpow_two_eq_sq, div_pow]
  simp only [key]
  rw [← Finset.sum_div, div_mul_eq_mul_div]

/-! ## Claim C1 — dipolar kernel at the zero wavevector -/

/-- C1, counterexample: the claim says the kernel returns exactly `0`
at the zero wavevector; at `(kx,ky,kz) = (0,0,0)` the code sets the
divisor to `1` and returns `3·0/1 - 1 = -1`, not `0`. -/
theorem c1_counterexample :
    dipol_dipol_interaction 0 0 0 = -1 ∧ (-1 : ℝ) ≠ 0 := by
  constructor
  · simp only [dipol_dipol_interaction, rpow_two_eq_sq]
    norm_num
  · norm_num

/-- C1, amended: at the zero wavevector the singular-point guard
replaces the divisor by `1` before the division (never 0/0, never NaN),
so the ratio `3·kz²/k²` contributes `0` and the returned value is `-1`;
at every nonzero wavevector the returned value is `3·kz²/k² - 1`. -/
theorem c1_dipol_kernel (kx ky kz : ℝ) :
    (kx = 0 ∧ ky = 0 ∧ kz = 0 → dipol_dipol_interaction kx ky kz = -1) ∧
    (kx ^ 2 + ky ^ 2 + kz ^ 2 ≠ 0 →
      dipol_dipol_interaction kx ky kz = 3 * kz ^ 2 / (kx ^ 2 + ky ^ 2 + kz ^ 2) - 1) := by
  constructor
  · rintro ⟨hx, hy, hz⟩
    subst hx; subst hy; subst hz
    simp only [dipol_dipol_interaction, rpow_two_eq_sq]
    norm_num
  · intro hk
    simp only [dipol_dipol_interaction, rpow_two_eq_sq]
    rw [if_neg hk]
    norm_num

/-- C1, witness: both branches of `c1_dipol_kernel` at concrete
wavevectors `(0,0,0)` and `(0,0,1)`. -/
theorem c1_witness :
    ((0:ℝ) = 0 ∧ (0:ℝ) = 0 ∧ (0:ℝ) = 0 ∧ dipol_dipol_interaction 0 0 0 = -1) ∧
    ((0:ℝ) ^ 2 + (0:ℝ) ^ 2 + (1:ℝ) ^ 2 ≠ 0 ∧
      dipol_dipol_interaction 0 0 1
        = 3 * (1:ℝ) ^ 2 / ((0:ℝ) ^ 2 + (0:ℝ) ^ 2 + (1:ℝ) ^ 2) - 1) :=
  ⟨⟨rfl, rfl, rfl, (c1_dipol_kernel 0 0 0).1 ⟨rfl, rfl, rfl⟩⟩,
   ⟨by norm_num, (c1_dipol_kernel 0 0 1).2 (by norm_num)⟩⟩

/-! ## Claim C8 — Thomas-Fermi initialisers -/

/-- C8: in every dimensionality the Thomas-Fermi function returns
`none` when `g = 0`, and otherwise `μ(g)·(1 - Σcoord²/(2μ(g)))/g` with
the dimension-specific closed-form `μ(g)` of the claim
(`thomasFermiClaim_1d/2d/3d` are transcribed from the claim's words). -/
theorem c8_thomas_fermi (x y z g : ℝ) :
    thomas_fermi_1d x g = thomasFermiClaim_1d x g ∧
    thomas_fermi_2d x y g = thomasFermiClaim_2d x y g ∧
    thomas_fermi_3d x y z g = thomasFermiClaim_3d x y z g := by
  by_cases hg : g = 0
  · subst hg
    simp [thomas_fermi_1d, thomas_fermi_2d, thomas_fermi_3d,
      thomasFermiClaim_1d, thomasFermiClaim_2d, thomasFermiClaim_3d]
  · have hg' : g ≠ 0 := hg
    refine ⟨?_, ?_, ?_⟩ <;>
      simp only [thomas_fermi_1d, thomas_fermi_2d, thomas_fermi_3d,
        thomasFermiClaim_1d, thomasFermiClaim_2d, thomasFermiClaim_3d,
        mu_1d, mu_2d, mu_3d, if_pos hg', if_neg hg,
        Option.some.injEq] <;>
      norm_num

/-! ## Claim C9 — harmonic trap potentials -/

/-- C9, counterexample: with `alpha_y = 2`, `x = 0`, `y = 1` the claim
predicts `½·(x² + (alpha_y·y)²) = 2`, but the 2D initialiser ignores
`alpha_y` (it hard-codes `alpha_y=1.0` in the delegated call, and the
delegate never uses it) and returns `½·(0² + 1²) = 0.5`. -/
theorem c9_counterexample :
    v_harmonic_2d 0 1 2 = 0.5 ∧ (0.5 : ℝ) ≠ 0.5 * ((0:ℝ) ^ 2 + (2 * 1) ^ 2) := by
  constructor
  · simp only [v_harmonic_2d, v_2d]
    norm_num
  · norm_num

/-- C9, amended: the 2D initialiser returns `½·(x² + y²)` for every
`alpha_y` (the anisotropy factor is ignored); the 3D initialiser
returns `½·(x² + (alpha_y·y)² + (alpha_z·z)²)` with `scale_x` fixed
to 1, as claimed. -/
theorem c9_harmonic_potentials (x y z alpha_y alpha_z : ℝ) :
    v_harmonic_2d x y alpha_y = 0.5 * (x ^ 2 + y ^ 2) ∧
    v_harmonic_3d x y z alpha_y alpha_z
      = 0.5 * (x ^ 2 + (alpha_y * y) ^ 2 + (alpha_z * z) ^ 2) :=
  ⟨rfl, rfl⟩

/-! ## Claim C2 — the per-step update sequence -/

/-- C2, counterexample: the claim quantifies over every dimension 1-3,
but on a concrete one-dimensional engine `time_step` raises an
`IndexError` at the two-axis debug slice and never performs the claimed
sequence. -/
theorem c2_counterexample :
    time_step engine1d = Except.error NpError.tooManyIndices := rfl

/-- C2, amended: for every engine of dimension at least 2 (hence for
dimensions 2 and 3), each call to `time_step` performs exactly the
claimed sequence — `H_pot` from the current field, elementwise
multiply, joint forward FFT, elementwise multiply by the precomputed
`H_kin` (broadcast along the last axis), inverse FFT, `H_pot`
recomputed from the updated field and applied again, `t` advanced by
`dt`, and the field rescaled by `1/√(p=2 norm integral)` — as captured
by the spec-side `spec_step`; a 1-dimensional engine instead fails with
an indexing error. -/
theorem c2_time_step_sequence (d R : ℕ) (st : EngineState (d + 2) R) :
    time_step st = Except.ok (spec_step st) := by
  have h : ∀ k : ℕ, npSliceCheck (k + 1 + 1) 2 = Except.ok () := by
    intro k
    unfold npSliceCheck
    rw [if_pos (by omega)]
  simp only [time_step, spec_step, h]
  rfl

/-! ## Claim C3 — 1D engines always fail in time_step -/

/-- C3: for every engine constructed with `dim = 1` (any resolution,
any field), `time_step` indexes the one-dimensional field with the
two-axis slice `psi_val[29:35, 29:34]` right after the first half-step
multiply and raises `IndexError`; no Fourier step, renormalisation or
`mu`/`E` update is ever reached (the step returns no updated state). -/
theorem c3_one_dimensional_step_fails (R : ℕ) (st : EngineState 1 R) :
    time_step st = Except.error NpError.tooManyIndices := rfl

/-! ## Claim C10 — dimension guard at construction -/

/-- C10: a dimension count above 3 makes construction abort with the
fatal configuration error (`sys.exit(1)`), returning no engine;
dimension counts 1-3 never trigger the abort and construction returns
an engine. -/
theorem c10_dim_guard (resolution timesteps : ℕ) (L dt g : ℝ)
    (imag_time : Bool) (dim : ℕ) :
    (3 < dim → schroedingerInit resolution timesteps L dt g imag_time dim
        = Except.error ConfigError.dimNotImplemented) ∧
    ((dim = 1 ∨ dim = 2 ∨ dim = 3) →
      isOkE (schroedingerInit resolution timesteps L dt g imag_time dim) = true) := by
  constructor
  · intro h
    simp [schroedingerInit, if_pos h]
  · intro h
    have h3 : ¬ 3 < dim := by rcases h with h | h | h <;> omega
    simp [schroedingerInit, if_neg h3, isOkE]

/-- C10, witness: construction aborts at `dim = 4` and succeeds at
`dim = 3`. -/
theorem c10_witness :
    (3 < 4 ∧ schroedingerInit 64 10 1 0.01 0 true 4
        = Except.error ConfigError.dimNotImplemented) ∧
    ((3 = 1 ∨ 3 = 2 ∨ 3 = 3) ∧
      isOkE (schroedingerInit 64 10 1 0.01 0 true 3) = true) :=
  ⟨⟨by norm_num, (c10_dim_guard 64 10 1 0.01 0 true 4).1 (by norm_num)⟩,
   ⟨by norm_num, (c10_dim_guard 64 10 1 0.01 0 true 3).2 (by norm_num)⟩⟩

/-! ## Claim C7 — no power-of-two validation of the resolution -/

/-- C7, counterexample: the claim says resolution 63 (not a power of
two) is rejected at construction and nothing is constructed; in the
code no power-of-two check exists and construction with resolution 63
returns an engine. -/
theorem c7_counterexample :
    isOkE (schroedingerInit 63 10 1 0.01 0 true 3) = true := by
  simp [schroedingerInit, isOkE]

/-- C7, amended: construction never validates the resolution against
the power-of-two convention — for every positive resolution (powers of
two or not, 63 included) and every dimension count at most 3,
construction succeeds and returns the engine; the only configuration
abort at construction is the dimension guard.  (Resolution 0 is a
separate failure — a `ZeroDivisionError` at the `dx` division, not a
power-of-two check — and lies outside this statement.) -/
theorem c7_no_resolution_check (resolution timesteps : ℕ) (L dt g : ℝ)
    (imag_time : Bool) (dim : ℕ) (hres : 0 < resolution) (h : dim ≤ 3) :
    isOkE (schroedingerInit resolution timesteps L dt g imag_time dim) = true := by
  have h3 : ¬ 3 < dim := by omega
  simp [schroedingerInit, if_neg h3, isOkE]

/-- C7, witness: the amended theorem applied at resolution 63,
dimension 2. -/
theorem c7_witness :
    0 < 63 ∧ 2 ≤ 3 ∧ isOkE (schroedingerInit 63 10 1 0.01 0 true 2) = true :=
  ⟨by norm_num, by norm_num,
   c7_no_resolution_check 63 10 1 0.01 0 true 2 (by norm_num) (by norm_num)⟩

/-! ## Claim C4 — shape of the squared-wavevector field -/

/-- C4, counterexample: for `dim = 2`, `resolution = 2` the claim says
`k_squared` is a `dim`-dimensional array of shape `R^d = [2, 2]`; the
constructor builds it as a one-dimensional array of shape `[2]`. -/
theorem c4_counterexample :
    (kSquaredArr 2 2 1).shape = [2] ∧ ([2] : List ℕ) ≠ List.replicate 2 2 := by
  constructor
  · rfl
  · decide

/-- C4, amended: in every dimension the constructor's `k_squared` is a
one-dimensional array of `resolution` entries — never broadcast to the
full grid shape — whose entry `i` is the sum over the active axes of
the squared wavevector sample `i` (the per-axis samples coincide), as
recorded by `kSquaredVal`. -/
theorem c4_k_squared_one_dimensional (dim resolution : ℕ) (L : ℝ) :
    kSquaredArr dim resolution L =
      NpArr.mk [resolution]
        ((List.range resolution).map (kSquaredVal dim resolution L)) := by
  by_cases h2 : 2 ≤ dim <;> by_cases h3 : 3 ≤ dim
  · simp [kSquaredArr, kSquaredVal, npSquare, npAddSameShape, kxArr,
      h2, h3, List.map_map, zipWith_map_same, Function.comp]
  · simp [kSquaredArr, kSquaredVal, npSquare, npAddSameShape, kxArr,
      h2, h3, List.map_map, zipWith_map_same, Function.comp]
  · omega
  · simp [kSquaredArr, kSquaredVal, npSquare, npAddSameShape, kxArr,
      h2, h3, List.map_map, zipWith_map_same, Function.comp]

/-! ## Claim C5 — position axis samples -/

/-- C5, counterexample: with `L = 1`, `R = 2` the axis is `[-1, 1]` —
the endpoint `+L` is included (numpy `linspace` defaults to
`endpoint=True`) and the consecutive samples differ by `2`, not by the
stored `dx = 2L/R = 1` the claim asserts. -/
theorem c5_counterexample :
    xAxis 1 2 = [-1, 1] ∧ dxStored 1 2 = 1 ∧ ((1:ℝ) - (-1) ≠ 1) := by
  refine ⟨?_, ?_, by norm_num⟩
  · show linspace (-1) 1 2 = [-1, 1]
    unfold linspace
    rw [if_neg (by omega)]
    show List.map _ [0, 1] = [-1, 1]
    simp
    norm_num
  · unfold dxStored
    norm_num

/-- C5, amended: for `R ≥ 2` the axis has `R` evenly spaced samples
covering the closed interval `[-L, L]`: sample `i` is
`-L + i·(2L/(R-1))`, the first sample is `-L`, the last sample is `+L`
(the endpoint is included, not excluded), and the stored spacing
`dx = 2L/R` differs from the actual sample spacing `2L/(R-1)`. -/
theorem c5_axis_samples (L : ℝ) (R : ℕ) (hR : 2 ≤ R) :
    (xAxis L R).length = R ∧
    (∀ i, i < R → (xAxis L R).get? i = some (-L + i * (2 * L / ((R:ℝ) - 1)))) ∧
    (xAxis L R).get? 0 = some (-L) ∧
    (xAxis L R).get? (R - 1) = some L ∧
    dxStored L R = 2 * L / R := by
  have hne : (R:ℝ) - 1 ≠ 0 := by
    have h2 : (2:ℝ) ≤ (R:ℝ) := by exact_mod_cast hR
    linarith
  have hax : xAxis L R
      = (List.range R).map (fun (i : ℕ) => -L + (i : ℝ) * ((L - -L) / ((R:ℝ) - 1))) := by
    unfold xAxis linspace
    rw [if_neg (by omega)]
  have hget : ∀ i, i < R →
      (xAxis L R).get? i = some (-L + i * (2 * L / ((R:ℝ) - 1))) := by
    intro i hi
    rw [hax, List.get?_map, List.get?_range hi]
    simp only [Option.map_some']
    congr 1
    ring
  refine ⟨?_, hget, ?_, ?_, ?_⟩
  · rw [hax]
    simp
  · rw [hget 0 (by omega)]
    norm_num
  · rw [hget (R - 1) (by omega)]
    congr 1
    have hcast : (((R - 1 : ℕ)) : ℝ) = (R:ℝ) - 1 := by
      rw [Nat.cast_sub (by omega : 1 ≤ R), Nat.cast_one]
    rw [hcast]
    field_simp
    ring
  · unfold dxStored
    norm_num

/-- C5, witness: the amended theorem applied at `L = 1`, `R = 2`,
giving the first sample `-1`. -/
theorem c5_witness :
    2 ≤ 2 ∧ (xAxis 1 2).get? 0 = some (-(1:ℝ)) :=
  ⟨by norm_num, (c5_axis_samples 1 2 (by norm_num)).2.2.1⟩

/-! ## Claim C6 — renormalisation yields unit norm -/

/-- C6: for any field whose p=2 norm integral (Riemann sum of `|ψ|²`
times the cell volume) is positive, the end-of-step rescale
`ψ ← ψ/√norm` of `time_step` yields a field of p=2 norm integral
exactly 1 (over the reals; `g` plays no role in the rescale, so in
particular this holds for every well-formed field with `g = 0`). -/
theorem c6_rescale_normalises {n R : ℕ} (ψ : GridFn n R) (dx : ℝ)
    (h : 0 < get_norm ψ dx 2) : get_norm (rescale ψ dx) dx 2 = 1 := by
  have hN : 0 ≤ get_norm ψ dx 2 := le_of_lt h
  have hre : rescale ψ dx
      = fun q => ψ q / ((Real.sqrt (get_norm ψ dx 2) : ℝ) : ℂ) := rfl
  rw [hre, get_norm_div_const ψ dx _ (Real.sqrt_nonneg _), Real.sq_sqrt hN,
    div_self (ne_of_gt h)]

/-- C6, witness: on the one-point grid with the constant-one field and
unit spacing, the norm before the rescale is `1 > 0` and the rescaled
field has norm exactly `1`. -/
theorem c6_witness :
    0 < get_norm psiOne 1 2 ∧ get_norm (rescale psiOne 1) 1 2 = 1 := by
  have h1 : get_norm psiOne 1 2 = 1 := by
    unfold get_norm psiOne
    simp
  have hpos : 0 < get_norm psiOne 1 2 := by
    rw [h1]
    norm_num
  exact ⟨hpos, c6_rescale_normalises psiOne 1 hpos⟩

end Supersolids
